import Mathlib

/-!
Verification development for a small console rendering engine
(`engine.py`): a grid of character cells (`Display` of `Cell`s),
shape templates (`EngineObject`) that can be drawn, removed and moved,
and a frame loop driver (`Engine.run`).

Modelling conventions:
* Python strings become `String`; the optional symbol argument becomes
  `Option String` (`none` plays the role of Python's `None`).
* The grid is a `List (List Cell)` indexed `[row][col]`, exactly as the
  source builds it; coordinates are `Int` (offsets may be negative).
* A Python reference to a grid-owned `Cell` is modelled by its grid
  address `(x, y)`: the display owns the cells, and the only use the
  source makes of a stored reference is to read back its coordinates.
* `del_object` iterates `object_coordinates`; on an unplaced object the
  source would fail (iterating `None`), which the embedding models by
  returning `none`.
-/

def EMPTY_CELL_SYMBOL : String := " "

def CELL_DEFAULT_SYMBOL : String := "#"

/-- Resolution of an optional symbol argument: Python's
`if symbol is None: symbol = CELL_DEFAULT_SYMBOL`. -/
def resolveSymbol (symbol : Option String) : String :=
  match symbol with
  | none => CELL_DEFAULT_SYMBOL
  | some s => s

structure Cell where
  x : Int
  y : Int
  symbol : String
  is_active : Bool

/-- Construction of a cell (`Cell.__init__`); `is_active` starts `False`. -/
def Cell.init (x y : Int) (symbol : String) : Cell :=
  { x := x, y := y, symbol := symbol, is_active := false }

/-- `Cell.activate`: store the (resolved) symbol and set the active flag. -/
def Cell.activate (c : Cell) (symbol : Option String) : Cell :=
  { c with symbol := resolveSymbol symbol, is_active := true }

/-- `Cell.deactivate`: reset the symbol to the empty glyph, clear the flag. -/
def Cell.deactivate (c : Cell) : Cell :=
  { c with symbol := EMPTY_CELL_SYMBOL, is_active := false }

structure EngineObject where
  object_form : List (Int × Int × Option String)
  object_coordinates : Option (List (Int × Int))

/-- Construction of an object (`EngineObject.__init__`): a form and no
placement. -/
def EngineObject.init (object_form : List (Int × Int × Option String)) : EngineObject :=
  { object_form := object_form, object_coordinates := none }

/-- `EngineObject.init_object_coordinates`. -/
def EngineObject.init_object_coordinates (obj : EngineObject)
    (object_coordinates : List (Int × Int)) : EngineObject :=
  { obj with object_coordinates := some object_coordinates }

/-- `EngineObject.del_object_coordinates`. -/
def EngineObject.del_object_coordinates (obj : EngineObject) : EngineObject :=
  { obj with object_coordinates := none }

structure Display where
  size_x : Nat
  size_y : Nat
  display : List (List Cell)

/-- `Display._display_init`: the grid, `size_y` rows of `size_x` cells,
each cell inactive with the empty glyph, and `Cell(col, row)` at
`display[row][col]`. -/
def display_init (size_x size_y : Nat) : List (List Cell) :=
  (List.range size_y).map (fun row =>
    (List.range size_x).map (fun col => Cell.init col row EMPTY_CELL_SYMBOL))

/-- `Display.__init__`. -/
def Display.init (size_x size_y : Nat) : Display :=
  { size_x := size_x, size_y := size_y, display := display_init size_x size_y }

/-- `Display._check_coordinates`: `0 <= x < size_x and 0 <= y < size_y`. -/
def Display.check_coordinates (d : Display) (x y : Int) : Bool :=
  decide (0 ≤ x) && decide (x < (d.size_x : Int)) &&
    decide (0 ≤ y) && decide (y < (d.size_y : Int))

def dummyCell : Cell := Cell.init 0 0 EMPTY_CELL_SYMBOL

/-- Reading `self.display[y][x]` (out-of-range reads yield a dummy; all
source accesses are bounds-checked first). -/
def Display.getCell (d : Display) (x y : Int) : Cell :=
  (d.display.getD y.toNat []).getD x.toNat dummyCell

/-- Writing `self.display[y][x]` in the functional embedding. -/
def Display.setCell (d : Display) (x y : Int) (c : Cell) : Display :=
  { d with display := d.display.set y.toNat ((d.display.getD y.toNat []).set x.toNat c) }

/-- `Display.activate_cell`: resolve the symbol, then (only in bounds)
activate the addressed cell. -/
def Display.activate_cell (d : Display) (x y : Int) (symbol : Option String) : Display :=
  if d.check_coordinates x y then
    d.setCell x y ((d.getCell x y).activate (some (resolveSymbol symbol)))
  else d

/-- `Display.deactivate_cell`: only in bounds, deactivate the cell. -/
def Display.deactivate_cell (d : Display) (x y : Int) : Display :=
  if d.check_coordinates x y then
    d.setCell x y ((d.getCell x y).deactivate)
  else d

/-- `Display.check_cell_condition`: the cell's active flag in bounds,
`False` out of bounds. -/
def Display.check_cell_condition (d : Display) (x y : Int) : Bool :=
  if d.check_coordinates x y then (d.getCell x y).is_active else false

/-- One iteration of the loop body of `Display.draw_object`: bounds-check
the absolute coordinates, and if in bounds activate the cell and record
its address. -/
def drawStep (start_x start_y : Int) (acc : Display × List (Int × Int))
    (t : Int × Int × Option String) : Display × List (Int × Int) :=
  let new_x := start_x + t.1
  let new_y := start_y + t.2.1
  if acc.1.check_coordinates new_x new_y then
    (acc.1.activate_cell new_x new_y t.2.2, acc.2 ++ [(new_x, new_y)])
  else acc

/-- `Display.draw_object`: fold the loop body over the form, then store
the recorded addresses in the object (even when the list is empty). -/
def Display.draw_object (d : Display) (engine_object : EngineObject)
    (start_x start_y : Int) : Display × EngineObject :=
  let r := engine_object.object_form.foldl (drawStep start_x start_y) (d, [])
  (r.1, engine_object.init_object_coordinates r.2)

/-- The deactivation loop of `Display.del_object`. -/
def delFold (coords : List (Int × Int)) (d : Display) : Display :=
  coords.foldl (fun d p => d.deactivate_cell p.1 p.2) d

/-- `Display.del_object`: iterating `None` coordinates fails in the
source (`TypeError` before any mutation), modelled as `none`; otherwise
every recorded address is deactivated and the placement is cleared. -/
def Display.del_object (d : Display) (engine_object : EngineObject) :
    Option (Display × EngineObject) :=
  match engine_object.object_coordinates with
  | none => none
  | some coords => some (delFold coords d, engine_object.del_object_coordinates)

/-- `Display.move_object`: `del_object` then `draw_object` at the new
origin. -/
def Display.move_object (d : Display) (engine_object : EngineObject)
    (move_to_x move_to_y : Int) : Option (Display × EngineObject) :=
  match d.del_object engine_object with
  | none => none
  | some p => some (p.1.draw_object p.2 move_to_x move_to_y)

/-- The spec-side description of moving: remove the object, then draw it
at the new origin (stated separately from `Display.move_object` so the
two can be compared). -/
def removeThenDraw (d : Display) (engine_object : EngineObject)
    (move_to_x move_to_y : Int) : Option (Display × EngineObject) :=
  (d.del_object engine_object).map (fun p => p.1.draw_object p.2 move_to_x move_to_y)

/-- The string built for one grid row: `"".join(cell.symbol for cell in row)`. -/
def rowString (row : List Cell) : String :=
  row.foldl (fun acc c => acc ++ c.symbol) ""

/-- The `display` string built by `Display.render`: every row's symbols
concatenated, each row followed by a newline. -/
def Display.renderFrame (d : Display) : String :=
  d.display.foldl (fun acc row => acc ++ rowString row ++ "\n") ""

/-- The full byte stream `Display.render` writes: the home control
sequence `ESC [ H`, then the frame in a single write (the final print
appends one newline). -/
def Display.renderOutput (d : Display) : String :=
  "\x1b[H" ++ d.renderFrame ++ "\n"

/-- The frame's lines, one per grid row. -/
def Display.renderLines (d : Display) : List String :=
  d.display.map rowString

/-- A frame-loop event, for describing what one iteration of
`Engine.run`'s loops does. -/
inductive FrameEvent where
  | sleepFor (duration : ℚ)
  | updateCall
  | renderCall

/-- Which loop `Engine.run` enters: `if fps:` sends every truthy value to
`_run_with_fps_limit`, and `None` or `0` to `_run_without_fps_limit`. -/
inductive LoopKind where
  | unlimited
  | limited (fps : ℚ)

/-- The dispatch in `Engine.run` (Python truthiness of the optional
float argument, time modelled by rationals). -/
def Engine.runKind (fps : Option ℚ) : LoopKind :=
  match fps with
  | none => LoopKind.unlimited
  | some f => if f = 0 then LoopKind.unlimited else LoopKind.limited f

/-- What one loop iteration does: `_run_without_fps_limit` calls update
then render; `_run_with_fps_limit` first sleeps for the remaining time
when less than the target interval has elapsed. -/
def iterationEvents (kind : LoopKind) (elapsed : ℚ) : List FrameEvent :=
  match kind with
  | LoopKind.unlimited => [FrameEvent.updateCall, FrameEvent.renderCall]
  | LoopKind.limited fps =>
      (if elapsed < fps then [FrameEvent.sleepFor (fps - elapsed)] else []) ++
        [FrameEvent.updateCall, FrameEvent.renderCall]

/-- Well-formedness of a display: the grid really is `size_y` rows of
`size_x` cells (true of every display the source can build). -/
def Display.wf (d : Display) : Bool :=
  (d.display.length == d.size_y) && d.display.all (fun row => row.length == d.size_x)

/-- The cell invariant claimed by the spec: the active flag agrees with
the symbol being non-empty. -/
def cellInv (c : Cell) : Bool :=
  c.is_active == decide (c.symbol ≠ EMPTY_CELL_SYMBOL)

/-- The cell invariant over the whole grid. -/
def Display.allCellInv (d : Display) : Bool :=
  d.display.all (fun row => row.all cellInv)

/-- Every cell's symbol is a single character (the spec's boundary
contract for symbols). -/
def Display.singleCharSymbols (d : Display) : Bool :=
  d.display.all (fun row => row.all (fun c => c.symbol.length == 1))

/-- The offsets of a form whose absolute coordinates land in bounds. -/
def inBoundsOffsets (d : Display) (form : List (Int × Int × Option String))
    (start_x start_y : Int) : List (Int × Int × Option String) :=
  form.filter (fun t => d.check_coordinates (start_x + t.1) (start_y + t.2.1))

/-- The absolute addresses of a list of offsets. -/
def absCoords (start_x start_y : Int) (l : List (Int × Int × Option String)) :
    List (Int × Int) :=
  l.map (fun t => (start_x + t.1, start_y + t.2.1))

/-- The in-bounds offsets of a form whose absolute coordinates are
exactly `(i, j)`; drawing writes this position once per entry, the last
one winning. -/
def hitsAt (d : Display) (form : List (Int × Int × Option String))
    (start_x start_y : Int) (i j : Nat) : List (Int × Int × Option String) :=
  form.filter (fun t =>
    d.check_coordinates (start_x + t.1) (start_y + t.2.1) &&
      (start_x + t.1 == (i : Int)) && (start_y + t.2.1 == (j : Int)))

/-- Writing a list at index `i` then reading index `i` back gives the new
element when the index is valid and the default otherwise. -/
theorem getD_set_eq_ite {α : Type} (l : List α) (i : Nat) (a d : α) :
    (l.set i a).getD i d = if i < l.length then a else d := by
  rw [List.getD_eq_getElem?_getD, List.getElem?_set, if_pos rfl]
  rcases Nat.lt_or_ge i l.length with h | h
  · rw [if_pos h, if_pos h]
    rfl
  · rw [if_neg (Nat.not_lt.mpr h), if_neg (Nat.not_lt.mpr h)]
    rfl

/-- Writing a list at one index leaves reads at any other index alone. -/
theorem getD_set_ne {α : Type} (l : List α) (i j : Nat) (a d : α) (h : i ≠ j) :
    (l.set i a).getD j d = l.getD j d := by
  rw [List.getD_eq_getElem?_getD, List.getD_eq_getElem?_getD, List.getElem?_set_ne h]

/-- Writing an element that satisfies a predicate preserves `List.all`. -/
theorem all_set {α : Type} (l : List α) (i : Nat) (a : α) (p : α → Bool)
    (hl : l.all p = true) (ha : p a = true) : (l.set i a).all p = true := by
  rw [List.all_eq_true] at hl ⊢
  intro x hx
  rcases List.mem_or_eq_of_mem_set hx with h | h
  · exact hl x h
  · subst h; exact ha

theorem wf_length (d : Display) (hwf : d.wf = true) : d.display.length = d.size_y := by
  simp [Display.wf] at hwf
  exact hwf.1

theorem wf_row_length (d : Display) (hwf : d.wf = true) (row : List Cell)
    (hr : row ∈ d.display) : row.length = d.size_x := by
  simp [Display.wf, List.all_eq_true] at hwf
  exact hwf.2 row hr

/-- Out-of-range row reads on a well-formed or any display give `[]`. -/
theorem getD_row_of_le (d : Display) (n : Nat) (h : d.display.length ≤ n) :
    d.display.getD n [] = [] := by
  rw [List.getD_eq_getElem?_getD, List.getElem?_eq_none h]
  rfl

theorem setCell_size_x (d : Display) (x y : Int) (c : Cell) :
    (d.setCell x y c).size_x = d.size_x := rfl

theorem setCell_size_y (d : Display) (x y : Int) (c : Cell) :
    (d.setCell x y c).size_y = d.size_y := rfl

/-- The bounds check reads only the two size fields. -/
theorem check_coordinates_congr (d d' : Display) (hx : d'.size_x = d.size_x)
    (hy : d'.size_y = d.size_y) (x y : Int) :
    d'.check_coordinates x y = d.check_coordinates x y := by
  simp [Display.check_coordinates, hx, hy]

theorem setCell_wf (d : Display) (x y : Int) (c : Cell) (hwf : d.wf = true) :
    (d.setCell x y c).wf = true := by
  rcases Nat.lt_or_ge y.toNat d.display.length with hyl | hyl
  · have hrow : (d.display.getD y.toNat []) ∈ d.display := by
      rw [List.getD_eq_getElem _ _ hyl]
      exact List.getElem_mem hyl
    have hrowlen : (d.display.getD y.toNat []).length = d.size_x :=
      wf_row_length d hwf _ hrow
    simp only [Display.wf, Display.setCell, List.length_set] at hwf ⊢
    rw [Bool.and_eq_true] at hwf ⊢
    refine ⟨hwf.1, ?_⟩
    rw [List.all_eq_true]
    intro row hmem
    rcases List.mem_or_eq_of_mem_set hmem with h | h
    · exact (List.all_eq_true.mp hwf.2) row h
    · subst h
      show (((d.display.getD y.toNat []).set x.toNat c).length == d.size_x) = true
      rw [List.length_set, hrowlen]
      simp
  · simp only [Display.setCell, List.set_eq_of_length_le hyl]
    exact hwf

theorem getCell_setCell_self (d : Display) (x y : Int) (c : Cell)
    (hwf : d.wf = true) (hb : d.check_coordinates x y = true) :
    (d.setCell x y c).getCell x y = c := by
  simp only [Display.check_coordinates, Bool.and_eq_true, decide_eq_true_eq] at hb
  obtain ⟨⟨⟨hx0, hx1⟩, hy0⟩, hy1⟩ := hb
  have hyl : y.toNat < d.display.length := by
    rw [wf_length d hwf]; omega
  have hrow : (d.display.getD y.toNat []) ∈ d.display := by
    rw [List.getD_eq_getElem _ _ hyl]
    exact List.getElem_mem hyl
  have hxl : x.toNat < (d.display.getD y.toNat []).length := by
    rw [wf_row_length d hwf _ hrow]; omega
  simp only [Display.getCell, Display.setCell]
  rw [getD_set_eq_ite, if_pos hyl, getD_set_eq_ite, if_pos hxl]

theorem getCell_setCell_ne (d : Display) (x y x' y' : Int) (c : Cell)
    (h : x'.toNat ≠ x.toNat ∨ y'.toNat ≠ y.toNat) :
    (d.setCell x y c).getCell x' y' = d.getCell x' y' := by
  simp only [Display.getCell, Display.setCell]
  rcases h with h | h
  · by_cases hy : y'.toNat = y.toNat
    · rw [hy, getD_set_eq_ite]
      rcases Nat.lt_or_ge y.toNat d.display.length with hyl | hyl
      · rw [if_pos hyl]
        exact getD_set_ne _ _ _ _ _ (fun hh => h (hh.symm))
      · rw [if_neg (Nat.not_lt.mpr hyl), getD_row_of_le d _ hyl]
    · rw [getD_set_ne _ _ _ _ _ (fun hh => hy (hh.symm))]
  · rw [getD_set_ne _ _ _ _ _ (fun hh => h (hh.symm))]

theorem activate_cell_oob (d : Display) (x y : Int) (s : Option String)
    (h : d.check_coordinates x y = false) : d.activate_cell x y s = d := by
  simp [Display.activate_cell, h]

theorem deactivate_cell_oob (d : Display) (x y : Int)
    (h : d.check_coordinates x y = false) : d.deactivate_cell x y = d := by
  simp [Display.deactivate_cell, h]

theorem check_cell_condition_oob (d : Display) (x y : Int)
    (h : d.check_coordinates x y = false) : d.check_cell_condition x y = false := by
  simp [Display.check_cell_condition, h]

theorem activate_cell_size_x (d : Display) (x y : Int) (s : Option String) :
    (d.activate_cell x y s).size_x = d.size_x := by
  simp only [Display.activate_cell]
  split <;> rfl

theorem activate_cell_size_y (d : Display) (x y : Int) (s : Option String) :
    (d.activate_cell x y s).size_y = d.size_y := by
  simp only [Display.activate_cell]
  split <;> rfl

theorem deactivate_cell_size_x (d : Display) (x y : Int) :
    (d.deactivate_cell x y).size_x = d.size_x := by
  simp only [Display.deactivate_cell]
  split <;> rfl

theorem deactivate_cell_size_y (d : Display) (x y : Int) :
    (d.deactivate_cell x y).size_y = d.size_y := by
  simp only [Display.deactivate_cell]
  split <;> rfl

theorem activate_cell_wf (d : Display) (x y : Int) (s : Option String)
    (hwf : d.wf = true) : (d.activate_cell x y s).wf = true := by
  simp only [Display.activate_cell]
  split
  · exact setCell_wf _ _ _ _ hwf
  · exact hwf

theorem deactivate_cell_wf (d : Display) (x y : Int) (hwf : d.wf = true) :
    (d.deactivate_cell x y).wf = true := by
  simp only [Display.deactivate_cell]
  split
  · exact setCell_wf _ _ _ _ hwf
  · exact hwf

theorem check_coordinates_activate_cell (d : Display) (x y a b : Int) (s : Option String) :
    (d.activate_cell x y s).check_coordinates a b = d.check_coordinates a b :=
  check_coordinates_congr _ _ (activate_cell_size_x d x y s) (activate_cell_size_y d x y s) a b

theorem check_coordinates_deactivate_cell (d : Display) (x y a b : Int) :
    (d.deactivate_cell x y).check_coordinates a b = d.check_coordinates a b :=
  check_coordinates_congr _ _ (deactivate_cell_size_x d x y) (deactivate_cell_size_y d x y) a b

theorem getCell_activate_cell_self (d : Display) (x y : Int) (s : Option String)
    (hwf : d.wf = true) (hb : d.check_coordinates x y = true) :
    (d.activate_cell x y s).getCell x y =
      { d.getCell x y with symbol := resolveSymbol s, is_active := true } := by
  simp only [Display.activate_cell, hb, if_pos]
  rw [getCell_setCell_self _ _ _ _ hwf hb]
  rfl

theorem getCell_activate_cell_ne (d : Display) (x y x' y' : Int) (s : Option String)
    (h : x'.toNat ≠ x.toNat ∨ y'.toNat ≠ y.toNat) :
    (d.activate_cell x y s).getCell x' y' = d.getCell x' y' := by
  simp only [Display.activate_cell]
  split
  · exact getCell_setCell_ne _ _ _ _ _ _ h
  · rfl

theorem getCell_deactivate_cell_self (d : Display) (x y : Int)
    (hwf : d.wf = true) (hb : d.check_coordinates x y = true) :
    (d.deactivate_cell x y).getCell x y =
      { d.getCell x y with symbol := EMPTY_CELL_SYMBOL, is_active := false } := by
  simp only [Display.deactivate_cell, hb, if_pos]
  rw [getCell_setCell_self _ _ _ _ hwf hb]
  rfl

theorem getCell_deactivate_cell_ne (d : Display) (x y x' y' : Int)
    (h : x'.toNat ≠ x.toNat ∨ y'.toNat ≠ y.toNat) :
    (d.deactivate_cell x y).getCell x' y' = d.getCell x' y' := by
  simp only [Display.deactivate_cell]
  split
  · exact getCell_setCell_ne _ _ _ _ _ _ h
  · rfl

theorem drawFold_size_x (start_x start_y : Int) (form : List (Int × Int × Option String))
    (acc : Display × List (Int × Int)) :
    (form.foldl (drawStep start_x start_y) acc).1.size_x = acc.1.size_x := by
  induction form generalizing acc with
  | nil => rfl
  | cons t rest ih =>
    rw [List.foldl_cons, ih]
    simp only [drawStep]
    split
    · exact activate_cell_size_x _ _ _ _
    · rfl

theorem drawFold_size_y (start_x start_y : Int) (form : List (Int × Int × Option String))
    (acc : Display × List (Int × Int)) :
    (form.foldl (drawStep start_x start_y) acc).1.size_y = acc.1.size_y := by
  induction form generalizing acc with
  | nil => rfl
  | cons t rest ih =>
    rw [List.foldl_cons, ih]
    simp only [drawStep]
    split
    · exact activate_cell_size_y _ _ _ _
    · rfl

theorem drawFold_wf (start_x start_y : Int) (form : List (Int × Int × Option String))
    (acc : Display × List (Int × Int)) (hwf : acc.1.wf = true) :
    (form.foldl (drawStep start_x start_y) acc).1.wf = true := by
  induction form generalizing acc with
  | nil => exact hwf
  | cons t rest ih =>
    rw [List.foldl_cons]
    apply ih
    simp only [drawStep]
    split
    · exact activate_cell_wf _ _ _ _ hwf
    · exact hwf

theorem drawFold_coords (start_x start_y : Int) (form : List (Int × Int × Option String))
    (d : Display) (cs : List (Int × Int)) :
    (form.foldl (drawStep start_x start_y) (d, cs)).2 =
      cs ++ absCoords start_x start_y (inBoundsOffsets d form start_x start_y) := by
  induction form generalizing d cs with
  | nil => simp [absCoords, inBoundsOffsets]
  | cons t rest ih =>
    rw [List.foldl_cons]
    simp only [drawStep]
    by_cases hc : d.check_coordinates (start_x + t.1) (start_y + t.2.1) = true
    · rw [if_pos hc, ih]
      have hsame : inBoundsOffsets (d.activate_cell (start_x + t.1) (start_y + t.2.1) t.2.2)
          rest start_x start_y = inBoundsOffsets d rest start_x start_y := by
        apply List.filter_congr
        intro a _
        rw [check_coordinates_activate_cell]
      rw [hsame]
      simp [inBoundsOffsets, absCoords, List.filter_cons, hc]
    · rw [if_neg hc, ih]
      simp [inBoundsOffsets, absCoords, List.filter_cons, hc]

theorem drawFold_getCell (start_x start_y : Int) (form : List (Int × Int × Option String))
    (d : Display) (cs : List (Int × Int)) (hwf : d.wf = true) (i j : Nat) :
    (form.foldl (drawStep start_x start_y) (d, cs)).1.getCell (i : Int) (j : Int) =
      match (hitsAt d form start_x start_y i j).getLast? with
      | none => d.getCell (i : Int) (j : Int)
      | some t => { d.getCell (i : Int) (j : Int) with
          symbol := resolveSymbol t.2.2, is_active := true } := by
  induction form generalizing d cs hwf with
  | nil => simp [hitsAt]
  | cons t rest ih =>
    rw [List.foldl_cons]
    simp only [drawStep]
    by_cases hc : d.check_coordinates (start_x + t.1) (start_y + t.2.1) = true
    · rw [if_pos hc]
      have hwf1 : (d.activate_cell (start_x + t.1) (start_y + t.2.1) t.2.2).wf = true :=
        activate_cell_wf _ _ _ _ hwf
      rw [ih _ _ hwf1]
      have hhits1 : hitsAt (d.activate_cell (start_x + t.1) (start_y + t.2.1) t.2.2)
          rest start_x start_y i j = hitsAt d rest start_x start_y i j := by
        apply List.filter_congr
        intro a _
        rw [check_coordinates_activate_cell]
      by_cases hmatch : ((start_x + t.1 == (i : Int)) && (start_y + t.2.1 == (j : Int))) = true
      · have heq : start_x + t.1 = (i : Int) ∧ start_y + t.2.1 = (j : Int) := by
          simpa [Bool.and_eq_true] using hmatch
        have hcell : (d.activate_cell (start_x + t.1) (start_y + t.2.1) t.2.2).getCell
            (i : Int) (j : Int) = { d.getCell (i : Int) (j : Int) with
              symbol := resolveSymbol t.2.2, is_active := true } := by
          rw [← heq.1, ← heq.2]
          exact getCell_activate_cell_self _ _ _ _ hwf hc
        have hhead : hitsAt d (t :: rest) start_x start_y i j =
            t :: hitsAt d rest start_x start_y i j := by
          simp [hitsAt, List.filter_cons, hc, hmatch]
        rw [hhits1, hcell, hhead]
        cases hlast : (hitsAt d rest start_x start_y i j).getLast? with
        | none =>
          rw [List.getLast?_cons, hlast]
          rfl
        | some u =>
          rw [List.getLast?_cons, hlast]
          rfl
      · have hcell : (d.activate_cell (start_x + t.1) (start_y + t.2.1) t.2.2).getCell
            (i : Int) (j : Int) = d.getCell (i : Int) (j : Int) := by
          apply getCell_activate_cell_ne
          simp only [Display.check_coordinates, Bool.and_eq_true, decide_eq_true_eq] at hc
          simp only [Bool.and_eq_true, beq_iff_eq, not_and] at hmatch
          omega
        have hhead : hitsAt d (t :: rest) start_x start_y i j =
            hitsAt d rest start_x start_y i j := by
          simp only [hitsAt, List.filter_cons]
          rw [Bool.and_assoc]
          cases hmm : ((start_x + t.1 == (i : Int)) && (start_y + t.2.1 == (j : Int))) with
          | true => exact absurd hmm hmatch
          | false => simp [hmm]
        rw [hhits1, hcell, hhead]
    · rw [if_neg hc]
      rw [ih _ _ hwf]
      have hhead : hitsAt d (t :: rest) start_x start_y i j =
          hitsAt d rest start_x start_y i j := by
        simp [hitsAt, List.filter_cons, hc]
      rw [hhead]

theorem delFold_cons (p : Int × Int) (rest : List (Int × Int)) (d : Display) :
    delFold (p :: rest) d = delFold rest (d.deactivate_cell p.1 p.2) := rfl

theorem delFold_size_x (coords : List (Int × Int)) (d : Display) :
    (delFold coords d).size_x = d.size_x := by
  induction coords generalizing d with
  | nil => rfl
  | cons p rest ih =>
    rw [delFold_cons, ih, deactivate_cell_size_x]

theorem delFold_size_y (coords : List (Int × Int)) (d : Display) :
    (delFold coords d).size_y = d.size_y := by
  induction coords generalizing d with
  | nil => rfl
  | cons p rest ih =>
    rw [delFold_cons, ih, deactivate_cell_size_y]

theorem delFold_wf (coords : List (Int × Int)) (d : Display) (hwf : d.wf = true) :
    (delFold coords d).wf = true := by
  induction coords generalizing d hwf with
  | nil => exact hwf
  | cons p rest ih =>
    rw [delFold_cons]
    exact ih _ (deactivate_cell_wf _ _ _ hwf)

theorem delFold_getCell (coords : List (Int × Int)) (d : Display)
    (hwf : d.wf = true) (i j : Nat) :
    (delFold coords d).getCell (i : Int) (j : Int) =
      if coords.any (fun p =>
          d.check_coordinates p.1 p.2 && (p.1 == (i : Int)) && (p.2 == (j : Int)))
      then { d.getCell (i : Int) (j : Int) with
        symbol := EMPTY_CELL_SYMBOL, is_active := false }
      else d.getCell (i : Int) (j : Int) := by
  induction coords generalizing d hwf with
  | nil => simp [delFold]
  | cons p rest ih =>
    rw [delFold_cons]
    cases hc : d.check_coordinates p.1 p.2 with
    | false =>
      rw [deactivate_cell_oob _ _ _ hc, ih _ hwf]
      simp [List.any_cons, hc]
    | true =>
      have hwf1 : (d.deactivate_cell p.1 p.2).wf = true := deactivate_cell_wf _ _ _ hwf
      rw [ih _ hwf1]
      simp only [check_coordinates_deactivate_cell]
      by_cases hmatch : ((p.1 == (i : Int)) && (p.2 == (j : Int))) = true
      · have heq : p.1 = (i : Int) ∧ p.2 = (j : Int) := by
          simpa [Bool.and_eq_true] using hmatch
        have hcell : (d.deactivate_cell p.1 p.2).getCell (i : Int) (j : Int) =
            { d.getCell (i : Int) (j : Int) with
              symbol := EMPTY_CELL_SYMBOL, is_active := false } := by
          rw [← heq.1, ← heq.2]
          exact getCell_deactivate_cell_self _ _ _ hwf hc
        have hany : ((p :: rest).any (fun q =>
            d.check_coordinates q.1 q.2 && (q.1 == (i : Int)) && (q.2 == (j : Int)))) = true := by
          simp [List.any_cons, hc, hmatch]
        rw [hcell, hany]
        split <;> rfl
      · have hcell : (d.deactivate_cell p.1 p.2).getCell (i : Int) (j : Int) =
            d.getCell (i : Int) (j : Int) := by
          apply getCell_deactivate_cell_ne
          simp only [Display.check_coordinates, Bool.and_eq_true, decide_eq_true_eq] at hc
          simp only [Bool.and_eq_true, beq_iff_eq, not_and] at hmatch
          omega
        have hhead : ((p :: rest).any (fun q =>
            d.check_coordinates q.1 q.2 && (q.1 == (i : Int)) && (q.2 == (j : Int)))) =
            rest.any (fun q =>
              d.check_coordinates q.1 q.2 && (q.1 == (i : Int)) && (q.2 == (j : Int))) := by
          simp only [List.any_cons]
          rw [Bool.and_assoc]
          cases hmm : ((p.1 == (i : Int)) && (p.2 == (j : Int))) with
          | true => exact absurd hmm hmatch
          | false => simp [hmm]
        rw [hcell, hhead]

theorem hitsAt_cons (d : Display) (t : Int × Int × Option String)
    (rest : List (Int × Int × Option String)) (start_x start_y : Int) (i j : Nat) :
    hitsAt d (t :: rest) start_x start_y i j =
      if d.check_coordinates (start_x + t.1) (start_y + t.2.1) &&
          (start_x + t.1 == (i : Int)) && (start_y + t.2.1 == (j : Int))
      then t :: hitsAt d rest start_x start_y i j
      else hitsAt d rest start_x start_y i j := by
  simp [hitsAt, List.filter_cons]

theorem any_absCoords_eq_hitsAt (d : Display) (form : List (Int × Int × Option String))
    (start_x start_y : Int) (i j : Nat) :
    ((absCoords start_x start_y (inBoundsOffsets d form start_x start_y)).any
        (fun p => d.check_coordinates p.1 p.2 && (p.1 == (i : Int)) && (p.2 == (j : Int)))) =
      !(hitsAt d form start_x start_y i j).isEmpty := by
  induction form with
  | nil => rfl
  | cons t rest ih =>
    rw [hitsAt_cons]
    simp only [inBoundsOffsets, List.filter_cons]
    cases hc : d.check_coordinates (start_x + t.1) (start_y + t.2.1) with
    | false =>
      simpa [inBoundsOffsets] using ih
    | true =>
      rw [if_pos rfl]
      simp only [absCoords, List.map_cons, List.any_cons, hc, Bool.true_and]
      cases hmm : ((start_x + t.1 == (i : Int)) && (start_y + t.2.1 == (j : Int))) with
      | true =>
        simp
      | false =>
        simpa [inBoundsOffsets, absCoords] using ih

theorem allCellInv_setCell (d : Display) (x y : Int) (c : Cell)
    (hinv : d.allCellInv = true) (hc : cellInv c = true) :
    (d.setCell x y c).allCellInv = true := by
  simp only [Display.allCellInv, Display.setCell] at hinv ⊢
  apply all_set _ _ _ _ hinv
  apply all_set
  · rcases Nat.lt_or_ge y.toNat d.display.length with hyl | hyl
    · have hmem : d.display.getD y.toNat [] ∈ d.display := by
        rw [List.getD_eq_getElem _ _ hyl]
        exact List.getElem_mem hyl
      exact List.all_eq_true.mp hinv _ hmem
    · rw [getD_row_of_le d _ hyl]
      rfl
  · exact hc

/-- C5: out-of-bounds coordinates make `activate_cell` and
`deactivate_cell` leave the display unchanged and make
`check_cell_condition` return `false`, and the bounds predicate
`check_coordinates` holds exactly on `[0, size_x) × [0, size_y)`. -/
theorem oob_cell_ops_are_noops (d : Display) (x y : Int) (s : Option String)
    (h : ¬ (0 ≤ x ∧ x < (d.size_x : Int) ∧ 0 ≤ y ∧ y < (d.size_y : Int))) :
    d.activate_cell x y s = d ∧ d.deactivate_cell x y = d ∧
      d.check_cell_condition x y = false ∧
      ∀ a b : Int, (d.check_coordinates a b = true ↔
        (0 ≤ a ∧ a < (d.size_x : Int) ∧ 0 ≤ b ∧ b < (d.size_y : Int))) := by
  have hiff : ∀ a b : Int, (d.check_coordinates a b = true ↔
      (0 ≤ a ∧ a < (d.size_x : Int) ∧ 0 ≤ b ∧ b < (d.size_y : Int))) := by
    intro a b
    simp [Display.check_coordinates, and_assoc]
  have hfalse : d.check_coordinates x y = false := by
    cases hb : d.check_coordinates x y with
    | false => rfl
    | true => exact absurd ((hiff x y).mp hb) h
  exact ⟨activate_cell_oob _ _ _ _ hfalse, deactivate_cell_oob _ _ _ hfalse,
    check_cell_condition_oob _ _ _ hfalse, hiff⟩

theorem oob_cell_ops_are_noops_witness :
    (¬ (0 ≤ (1000 : Int) ∧ (1000 : Int) < (((Display.init 10 10).size_x : Nat) : Int) ∧
        0 ≤ (1000 : Int) ∧ (1000 : Int) < (((Display.init 10 10).size_y : Nat) : Int))) ∧
      ((Display.init 10 10).activate_cell 1000 1000 (some "B") = Display.init 10 10 ∧
        (Display.init 10 10).deactivate_cell 1000 1000 = Display.init 10 10 ∧
        (Display.init 10 10).check_cell_condition 1000 1000 = false ∧
        ∀ a b : Int, ((Display.init 10 10).check_coordinates a b = true ↔
          (0 ≤ a ∧ a < (((Display.init 10 10).size_x : Nat) : Int) ∧
            0 ≤ b ∧ b < (((Display.init 10 10).size_y : Nat) : Int)))) :=
  ⟨by decide, oob_cell_ops_are_noops (Display.init 10 10) 1000 1000 (some "B") (by decide)⟩

/-- C7: on an in-bounds coordinate, activating a cell makes the active
query true and stores the given symbol (the default glyph `#` when the
symbol is omitted), and a subsequent deactivation returns the cell to
inactive with the empty glyph. -/
theorem activate_then_query (d : Display) (x y : Int) (s : Option String)
    (hwf : d.wf = true) (hb : d.check_coordinates x y = true) :
    (d.activate_cell x y s).check_cell_condition x y = true ∧
      ((d.activate_cell x y s).getCell x y).symbol = resolveSymbol s ∧
      ((d.activate_cell x y s).getCell x y).is_active = true ∧
      (((d.activate_cell x y s).deactivate_cell x y).getCell x y).is_active = false ∧
      (((d.activate_cell x y s).deactivate_cell x y).getCell x y).symbol = EMPTY_CELL_SYMBOL := by
  have hcell := getCell_activate_cell_self d x y s hwf hb
  have hwf1 : (d.activate_cell x y s).wf = true := activate_cell_wf _ _ _ _ hwf
  have hb1 : (d.activate_cell x y s).check_coordinates x y = true := by
    rw [check_coordinates_activate_cell]
    exact hb
  have hdcell := getCell_deactivate_cell_self (d.activate_cell x y s) x y hwf1 hb1
  refine ⟨?_, ?_, ?_, ?_, ?_⟩
  · simp only [Display.check_cell_condition]
    rw [if_pos hb1, hcell]
  · rw [hcell]
  · rw [hcell]
  · rw [hdcell]
  · rw [hdcell]

theorem activate_then_query_witness :
    ((Display.init 10 10).wf = true ∧ (Display.init 10 10).check_coordinates 2 3 = true) ∧
      (((Display.init 10 10).activate_cell 2 3 (some "Z")).check_cell_condition 2 3 = true ∧
        (((Display.init 10 10).activate_cell 2 3 (some "Z")).getCell 2 3).symbol =
          resolveSymbol (some "Z") ∧
        (((Display.init 10 10).activate_cell 2 3 (some "Z")).getCell 2 3).is_active = true ∧
        ((((Display.init 10 10).activate_cell 2 3 (some "Z")).deactivate_cell 2 3).getCell 2 3).is_active
          = false ∧
        ((((Display.init 10 10).activate_cell 2 3 (some "Z")).deactivate_cell 2 3).getCell 2 3).symbol
          = EMPTY_CELL_SYMBOL) :=
  ⟨⟨by decide, by decide⟩,
    activate_then_query (Display.init 10 10) 2 3 (some "Z") (by decide) (by decide)⟩

/-- C9: `run` with an omitted interval and `run 0` both select the
unlimited-rate loop, whose every iteration is update then render with no
sleep event. -/
theorem run_zero_like_run_none :
    Engine.runKind none = LoopKind.unlimited ∧
      Engine.runKind (some 0) = Engine.runKind none ∧
      ∀ elapsed : ℚ, iterationEvents (Engine.runKind (some 0)) elapsed =
        [FrameEvent.updateCall, FrameEvent.renderCall] := by
  refine ⟨rfl, ?_, ?_⟩
  · simp [Engine.runKind]
  · intro e
    simp [Engine.runKind, iterationEvents]

/-- C3 counterexample: on a fresh 3×3 display, which satisfies the cell
invariant, the public activation `activate_cell 0 0 " "` produces a cell
that is active while its symbol is the empty glyph, so the invariant
`is_active == (symbol != " ")` is not preserved by every activation. -/
theorem activate_space_breaks_cellInv :
    (Display.init 3 3).allCellInv = true ∧
      ((Display.init 3 3).activate_cell 0 0 (some EMPTY_CELL_SYMBOL)).allCellInv = false ∧
      (((Display.init 3 3).activate_cell 0 0 (some EMPTY_CELL_SYMBOL)).getCell 0 0).is_active
        = true ∧
      (((Display.init 3 3).activate_cell 0 0 (some EMPTY_CELL_SYMBOL)).getCell 0 0).symbol
        = EMPTY_CELL_SYMBOL := by
  refine ⟨by decide, by decide, by decide, by decide⟩

/-- C3 amended: every cell of a fresh display satisfies
`is_active == (symbol != " ")`, and the invariant is preserved by every
`deactivate_cell` and by every `activate_cell` whose symbol argument is
not the empty glyph itself (an omitted symbol resolves to `#`). -/
theorem cell_invariant_preserved (w h : Nat) (d : Display) (x y : Int) (s : Option String)
    (hinv : d.allCellInv = true) (hs : s ≠ some EMPTY_CELL_SYMBOL) :
    (Display.init w h).allCellInv = true ∧
      (d.activate_cell x y s).allCellInv = true ∧
      (d.deactivate_cell x y).allCellInv = true := by
  refine ⟨?_, ?_, ?_⟩
  · simp only [Display.allCellInv, Display.init, display_init]
    apply List.all_eq_true.mpr
    intro row hrow
    obtain ⟨r, hrmem, hr⟩ := List.mem_map.mp hrow
    subst hr
    apply List.all_eq_true.mpr
    intro c hc
    obtain ⟨ci, hcmem, hcdef⟩ := List.mem_map.mp hc
    subst hcdef
    simp [cellInv, Cell.init]
  · simp only [Display.activate_cell]
    split
    · apply allCellInv_setCell _ _ _ _ hinv
      have hX : resolveSymbol s ≠ EMPTY_CELL_SYMBOL := by
        cases s with
        | none =>
          show CELL_DEFAULT_SYMBOL ≠ EMPTY_CELL_SYMBOL
          decide
        | some v =>
          show v ≠ EMPTY_CELL_SYMBOL
          intro hv
          exact hs (by rw [hv])
      simp only [Cell.activate, cellInv]
      simp
      exact hX
    · exact hinv
  · simp only [Display.deactivate_cell]
    split
    · apply allCellInv_setCell _ _ _ _ hinv
      rfl
    · exact hinv

theorem cell_invariant_preserved_witness :
    ((Display.init 2 2).allCellInv = true ∧ (some "A" : Option String) ≠ some EMPTY_CELL_SYMBOL) ∧
      ((Display.init 5 4).allCellInv = true ∧
        ((Display.init 2 2).activate_cell 1 1 (some "A")).allCellInv = true ∧
        ((Display.init 2 2).deactivate_cell 1 1).allCellInv = true) :=
  ⟨⟨by decide, by decide⟩,
    cell_invariant_preserved 5 4 (Display.init 2 2) 1 1 (some "A") (by decide) (by decide)⟩

/-- C1: `draw_object` activates exactly the in-bounds offsets of the
form (with the offset's symbol, default glyph for `none`), leaves every
other cell unchanged and skips out-of-bounds offsets entirely, and
stores as the object's placed cells exactly the addresses of the
in-bounds offsets in form order.  When several in-bounds offsets land on
one cell the last one's symbol wins, which the `getLast?` match
expresses. -/
theorem draw_object_spec (d : Display) (obj : EngineObject) (start_x start_y : Int)
    (hwf : d.wf = true) :
    (d.draw_object obj start_x start_y).2.object_coordinates =
      some (absCoords start_x start_y (inBoundsOffsets d obj.object_form start_x start_y)) ∧
    (d.draw_object obj start_x start_y).2.object_form = obj.object_form ∧
    ∀ i j : Nat,
      (d.draw_object obj start_x start_y).1.getCell (i : Int) (j : Int) =
        match (hitsAt d obj.object_form start_x start_y i j).getLast? with
        | none => d.getCell (i : Int) (j : Int)
        | some t => { d.getCell (i : Int) (j : Int) with
            symbol := resolveSymbol t.2.2, is_active := true } := by
  refine ⟨?_, rfl, ?_⟩
  · simp only [Display.draw_object, EngineObject.init_object_coordinates]
    rw [drawFold_coords]
    simp
  · intro i j
    simp only [Display.draw_object]
    exact drawFold_getCell start_x start_y obj.object_form d [] hwf i j

def exObjAB : EngineObject :=
  EngineObject.init [(0, 0, some "A"), (1000, 1000, some "B")]

theorem draw_object_spec_witness :
    (Display.init 10 10).wf = true ∧
      (((Display.init 10 10).draw_object exObjAB 0 0).2.object_coordinates =
        some (absCoords 0 0 (inBoundsOffsets (Display.init 10 10) exObjAB.object_form 0 0)) ∧
      ((Display.init 10 10).draw_object exObjAB 0 0).2.object_form = exObjAB.object_form ∧
      ∀ i j : Nat,
        ((Display.init 10 10).draw_object exObjAB 0 0).1.getCell (i : Int) (j : Int) =
          match (hitsAt (Display.init 10 10) exObjAB.object_form 0 0 i j).getLast? with
          | none => (Display.init 10 10).getCell (i : Int) (j : Int)
          | some t => { (Display.init 10 10).getCell (i : Int) (j : Int) with
              symbol := resolveSymbol t.2.2, is_active := true }) ∧
      ((Display.init 10 10).draw_object exObjAB 0 0).2.object_coordinates = some [(0, 0)] ∧
      (((Display.init 10 10).draw_object exObjAB 0 0).1.getCell 0 0).symbol = "A" ∧
      (((Display.init 10 10).draw_object exObjAB 0 0).1.display.all fun row =>
        row.all fun c => c.is_active == ((c.x == 0) && (c.y == 0))) = true :=
  ⟨by decide, draw_object_spec (Display.init 10 10) exObjAB 0 0 (by decide),
    by decide, by decide, by decide⟩

/-- C2: drawing an unplaced object and then removing it succeeds, leaves
the object unplaced again, and leaves every cell that the draw touched
(the recorded in-bounds addresses) inactive with the empty glyph. -/
theorem draw_then_del_roundtrip (d : Display) (obj : EngineObject) (start_x start_y : Int)
    (hwf : d.wf = true) (_hunplaced : obj.object_coordinates = none) :
    ((d.draw_object obj start_x start_y).1.del_object
        (d.draw_object obj start_x start_y).2).isSome = true ∧
    ∀ q, ((d.draw_object obj start_x start_y).1.del_object
        (d.draw_object obj start_x start_y).2) = some q →
      q.2.object_coordinates = none ∧
      ∀ i j : Nat, ((i : Int), (j : Int)) ∈
          absCoords start_x start_y (inBoundsOffsets d obj.object_form start_x start_y) →
        q.1.getCell (i : Int) (j : Int) =
          { d.getCell (i : Int) (j : Int) with
            symbol := EMPTY_CELL_SYMBOL, is_active := false } := by
  have hA : (d.draw_object obj start_x start_y).2.object_coordinates =
      some (absCoords start_x start_y (inBoundsOffsets d obj.object_form start_x start_y)) := by
    simp only [Display.draw_object, EngineObject.init_object_coordinates]
    rw [drawFold_coords]
    simp
  have hdel : (d.draw_object obj start_x start_y).1.del_object
      (d.draw_object obj start_x start_y).2 =
      some (delFold (absCoords start_x start_y
          (inBoundsOffsets d obj.object_form start_x start_y))
        (d.draw_object obj start_x start_y).1,
        (d.draw_object obj start_x start_y).2.del_object_coordinates) := by
    simp only [Display.del_object, hA]
  refine ⟨by rw [hdel]; rfl, ?_⟩
  intro q hq
  rw [hdel] at hq
  injection hq with hq
  subst hq
  refine ⟨rfl, ?_⟩
  intro i j hmem
  have hwfdd : (d.draw_object obj start_x start_y).1.wf = true := by
    simp only [Display.draw_object]
    exact drawFold_wf _ _ _ _ hwf
  have hsx : (d.draw_object obj start_x start_y).1.size_x = d.size_x := by
    simp only [Display.draw_object]
    exact drawFold_size_x _ _ _ _
  have hsy : (d.draw_object obj start_x start_y).1.size_y = d.size_y := by
    simp only [Display.draw_object]
    exact drawFold_size_y _ _ _ _
  have hcheck : d.check_coordinates (i : Int) (j : Int) = true := by
    simp only [absCoords, List.mem_map] at hmem
    obtain ⟨t, htmem, hteq⟩ := hmem
    simp only [inBoundsOffsets, List.mem_filter] at htmem
    rw [Prod.mk.injEq] at hteq
    obtain ⟨h1, h2⟩ := hteq
    rw [← h1, ← h2]
    exact htmem.2
  rw [delFold_getCell _ _ hwfdd i j]
  have hany : ((absCoords start_x start_y
      (inBoundsOffsets d obj.object_form start_x start_y)).any fun p =>
        (d.draw_object obj start_x start_y).1.check_coordinates p.1 p.2 &&
          (p.1 == (i : Int)) && (p.2 == (j : Int))) = true := by
    apply List.any_eq_true.mpr
    refine ⟨((i : Int), (j : Int)), hmem, ?_⟩
    rw [check_coordinates_congr d _ hsx hsy]
    simp [hcheck]
  rw [hany, if_pos rfl]
  have hget := drawFold_getCell start_x start_y obj.object_form d [] hwf i j
  simp only [Display.draw_object]
  rw [show ((obj.object_form.foldl (drawStep start_x start_y) (d, [])).1.getCell
      (i : Int) (j : Int)) = _ from hget]
  cases (hitsAt d obj.object_form start_x start_y i j).getLast? with
  | none => rfl
  | some t => rfl

def exObjRound : EngineObject :=
  EngineObject.init [(1, 1, some "R"), (2, 1, none), (50, 50, some "Q")]

theorem draw_then_del_roundtrip_witness :
    ((Display.init 10 10).wf = true ∧ exObjRound.object_coordinates = none) ∧
      ((((Display.init 10 10).draw_object exObjRound 0 0).1.del_object
          ((Display.init 10 10).draw_object exObjRound 0 0).2).isSome = true ∧
      ∀ q, (((Display.init 10 10).draw_object exObjRound 0 0).1.del_object
          ((Display.init 10 10).draw_object exObjRound 0 0).2) = some q →
        q.2.object_coordinates = none ∧
        ∀ i j : Nat, ((i : Int), (j : Int)) ∈
            absCoords 0 0 (inBoundsOffsets (Display.init 10 10) exObjRound.object_form 0 0) →
          q.1.getCell (i : Int) (j : Int) =
            { (Display.init 10 10).getCell (i : Int) (j : Int) with
              symbol := EMPTY_CELL_SYMBOL, is_active := false }) :=
  ⟨⟨by decide, by decide⟩,
    draw_then_del_roundtrip (Display.init 10 10) exObjRound 0 0 (by decide) (by decide)⟩

/-- C6: `del_object` on an unplaced object fails (the source iterates an
absent list) without producing any new state, while on a placed object
it deactivates every recorded in-bounds cell and resets the placement to
`None`. -/
theorem del_object_requires_placement (d : Display) (obj placedObj : EngineObject)
    (L : List (Int × Int)) (hwf : d.wf = true)
    (hunplaced : obj.object_coordinates = none)
    (hplaced : placedObj.object_coordinates = some L) :
    d.del_object obj = none ∧
    d.del_object placedObj = some (delFold L d, placedObj.del_object_coordinates) ∧
    (placedObj.del_object_coordinates).object_coordinates = none ∧
    ∀ i j : Nat, ((i : Int), (j : Int)) ∈ L →
      d.check_coordinates (i : Int) (j : Int) = true →
      (delFold L d).getCell (i : Int) (j : Int) =
        { d.getCell (i : Int) (j : Int) with
          symbol := EMPTY_CELL_SYMBOL, is_active := false } := by
  refine ⟨?_, ?_, rfl, ?_⟩
  · simp [Display.del_object, hunplaced]
  · simp [Display.del_object, hplaced]
  · intro i j hmem hc
    rw [delFold_getCell L d hwf i j]
    have hany : (L.any fun p =>
        d.check_coordinates p.1 p.2 && (p.1 == (i : Int)) && (p.2 == (j : Int))) = true := by
      apply List.any_eq_true.mpr
      exact ⟨((i : Int), (j : Int)), hmem, by simp [hc]⟩
    rw [hany, if_pos rfl]

def exObjUnplaced : EngineObject :=
  EngineObject.init [(0, 0, some "U")]

def exObjWithCells : EngineObject :=
  { object_form := [(0, 0, some "P")], object_coordinates := some [(2, 2)] }

theorem del_object_requires_placement_witness :
    ((Display.init 10 10).wf = true ∧ exObjUnplaced.object_coordinates = none ∧
        exObjWithCells.object_coordinates = some [(2, 2)]) ∧
      ((Display.init 10 10).del_object exObjUnplaced = none ∧
        (Display.init 10 10).del_object exObjWithCells =
          some (delFold [(2, 2)] (Display.init 10 10), exObjWithCells.del_object_coordinates) ∧
        (exObjWithCells.del_object_coordinates).object_coordinates = none ∧
        ∀ i j : Nat, ((i : Int), (j : Int)) ∈ [((2 : Int), (2 : Int))] →
          (Display.init 10 10).check_coordinates (i : Int) (j : Int) = true →
          (delFold [(2, 2)] (Display.init 10 10)).getCell (i : Int) (j : Int) =
            { (Display.init 10 10).getCell (i : Int) (j : Int) with
              symbol := EMPTY_CELL_SYMBOL, is_active := false }) :=
  ⟨⟨by decide, by decide, by decide⟩,
    del_object_requires_placement (Display.init 10 10) exObjUnplaced exObjWithCells
      [(2, 2)] (by decide) (by decide) (by decide)⟩

/-- C10: drawing an already placed object overwrites its placed-cells
list with the new footprint; every old recorded cell not covered by the
new footprint keeps its previous grid state (so it stays active if it
was active), and a subsequent `del_object` of the object leaves such a
cell untouched as well, since it is no longer tracked. -/
theorem draw_object_overwrites_placement (d : Display) (obj : EngineObject)
    (start_x start_y : Int) (L : List (Int × Int))
    (hwf : d.wf = true) (_hplaced : obj.object_coordinates = some L) :
    (d.draw_object obj start_x start_y).2.object_coordinates =
      some (absCoords start_x start_y (inBoundsOffsets d obj.object_form start_x start_y)) ∧
    ∀ i j : Nat, ((i : Int), (j : Int)) ∈ L →
      hitsAt d obj.object_form start_x start_y i j = [] →
      (d.draw_object obj start_x start_y).1.getCell (i : Int) (j : Int) =
        d.getCell (i : Int) (j : Int) ∧
      ∀ q, (d.draw_object obj start_x start_y).1.del_object
          (d.draw_object obj start_x start_y).2 = some q →
        q.1.getCell (i : Int) (j : Int) = d.getCell (i : Int) (j : Int) := by
  have hA : (d.draw_object obj start_x start_y).2.object_coordinates =
      some (absCoords start_x start_y (inBoundsOffsets d obj.object_form start_x start_y)) := by
    simp only [Display.draw_object, EngineObject.init_object_coordinates]
    rw [drawFold_coords]
    simp
  refine ⟨hA, ?_⟩
  intro i j hmem hhits
  have hget := drawFold_getCell start_x start_y obj.object_form d [] hwf i j
  have hunchanged : (d.draw_object obj start_x start_y).1.getCell (i : Int) (j : Int) =
      d.getCell (i : Int) (j : Int) := by
    simp only [Display.draw_object]
    rw [hget, hhits]
    rfl
  refine ⟨hunchanged, ?_⟩
  intro q hq
  have hdel : (d.draw_object obj start_x start_y).1.del_object
      (d.draw_object obj start_x start_y).2 =
      some (delFold (absCoords start_x start_y
          (inBoundsOffsets d obj.object_form start_x start_y))
        (d.draw_object obj start_x start_y).1,
        (d.draw_object obj start_x start_y).2.del_object_coordinates) := by
    simp only [Display.del_object, hA]
  rw [hdel] at hq
  injection hq with hq
  subst hq
  have hwfdd : (d.draw_object obj start_x start_y).1.wf = true := by
    simp only [Display.draw_object]
    exact drawFold_wf _ _ _ _ hwf
  have hsx : (d.draw_object obj start_x start_y).1.size_x = d.size_x := by
    simp only [Display.draw_object]
    exact drawFold_size_x _ _ _ _
  have hsy : (d.draw_object obj start_x start_y).1.size_y = d.size_y := by
    simp only [Display.draw_object]
    exact drawFold_size_y _ _ _ _
  rw [delFold_getCell _ _ hwfdd i j]
  have hchk : ∀ a b : Int, (d.draw_object obj start_x start_y).1.check_coordinates a b =
      d.check_coordinates a b := fun a b => check_coordinates_congr d _ hsx hsy a b
  simp only [hchk]
  rw [any_absCoords_eq_hitsAt, hhits]
  simp only [List.isEmpty_nil, Bool.not_true, Bool.false_eq_true, if_false]
  exact hunchanged

def exObjMoved : EngineObject :=
  { object_form := [(0, 0, some "C")], object_coordinates := some [(2, 2)] }

theorem draw_object_overwrites_placement_witness :
    ((Display.init 10 10).wf = true ∧ exObjMoved.object_coordinates = some [(2, 2)]) ∧
      (((Display.init 10 10).draw_object exObjMoved 5 5).2.object_coordinates =
        some (absCoords 5 5 (inBoundsOffsets (Display.init 10 10) exObjMoved.object_form 5 5)) ∧
      ∀ i j : Nat, ((i : Int), (j : Int)) ∈ [((2 : Int), (2 : Int))] →
        hitsAt (Display.init 10 10) exObjMoved.object_form 5 5 i j = [] →
        ((Display.init 10 10).draw_object exObjMoved 5 5).1.getCell (i : Int) (j : Int) =
          (Display.init 10 10).getCell (i : Int) (j : Int) ∧
        ∀ q, ((Display.init 10 10).draw_object exObjMoved 5 5).1.del_object
            ((Display.init 10 10).draw_object exObjMoved 5 5).2 = some q →
          q.1.getCell (i : Int) (j : Int) = (Display.init 10 10).getCell (i : Int) (j : Int)) :=
  ⟨⟨by decide, by decide⟩,
    draw_object_overwrites_placement (Display.init 10 10) exObjMoved 5 5 [(2, 2)]
      (by decide) (by decide)⟩

theorem hitsAt_congr (d d' : Display) (hx : d'.size_x = d.size_x) (hy : d'.size_y = d.size_y)
    (form : List (Int × Int × Option String)) (start_x start_y : Int) (i j : Nat) :
    hitsAt d' form start_x start_y i j = hitsAt d form start_x start_y i j := by
  apply List.filter_congr
  intro t _
  rw [check_coordinates_congr d d' hx hy]

/-- C8: `move_object` is exactly `del_object` followed by `draw_object`
at the new origin; consequently every old recorded cell that the new
footprint does not cover ends up inactive with the empty glyph, while
every position the new footprint covers ends up active. -/
theorem move_object_is_remove_then_draw (d : Display) (obj : EngineObject)
    (move_to_x move_to_y : Int) (L : List (Int × Int))
    (hwf : d.wf = true) (hplaced : obj.object_coordinates = some L)
    (hLb : ∀ p ∈ L, d.check_coordinates p.1 p.2 = true) :
    d.move_object obj move_to_x move_to_y = removeThenDraw d obj move_to_x move_to_y ∧
    ∀ q, d.move_object obj move_to_x move_to_y = some q →
      (∀ i j : Nat, ((i : Int), (j : Int)) ∈ L →
        hitsAt d obj.object_form move_to_x move_to_y i j = [] →
        q.1.getCell (i : Int) (j : Int) =
          { d.getCell (i : Int) (j : Int) with
            symbol := EMPTY_CELL_SYMBOL, is_active := false }) ∧
      (∀ i j : Nat,
        (hitsAt d obj.object_form move_to_x move_to_y i j).getLast? ≠ none →
        (q.1.getCell (i : Int) (j : Int)).is_active = true) := by
  have hmove : d.move_object obj move_to_x move_to_y =
      some ((delFold L d).draw_object obj.del_object_coordinates move_to_x move_to_y) := by
    simp [Display.move_object, Display.del_object, hplaced]
  constructor
  · rw [hmove]
    simp [removeThenDraw, Display.del_object, hplaced]
  · intro q hq
    rw [hmove] at hq
    injection hq with hq
    subst hq
    have hwf1 : (delFold L d).wf = true := delFold_wf L d hwf
    have hsx : (delFold L d).size_x = d.size_x := delFold_size_x L d
    have hsy : (delFold L d).size_y = d.size_y := delFold_size_y L d
    constructor
    · intro i j hmem hhits
      have hget := drawFold_getCell move_to_x move_to_y obj.object_form (delFold L d) [] hwf1 i j
      have hhits1 : hitsAt (delFold L d) obj.object_form move_to_x move_to_y i j = [] := by
        rw [hitsAt_congr d (delFold L d) hsx hsy]
        exact hhits
      have hdelcell : (delFold L d).getCell (i : Int) (j : Int) =
          { d.getCell (i : Int) (j : Int) with
            symbol := EMPTY_CELL_SYMBOL, is_active := false } := by
        rw [delFold_getCell L d hwf i j]
        have hany : (L.any fun p =>
            d.check_coordinates p.1 p.2 && (p.1 == (i : Int)) && (p.2 == (j : Int))) = true := by
          apply List.any_eq_true.mpr
          refine ⟨((i : Int), (j : Int)), hmem, ?_⟩
          simp [hLb _ hmem]
        rw [hany, if_pos rfl]
      show (obj.object_form.foldl (drawStep move_to_x move_to_y)
          ((delFold L d), [])).1.getCell (i : Int) (j : Int) = _
      rw [hget, hhits1]
      exact hdelcell
    · intro i j hne
      cases hl : (hitsAt d obj.object_form move_to_x move_to_y i j).getLast? with
      | none => exact absurd hl hne
      | some t =>
        have hget := drawFold_getCell move_to_x move_to_y obj.object_form (delFold L d) [] hwf1 i j
        have hl1 : (hitsAt (delFold L d) obj.object_form move_to_x move_to_y i j).getLast?
            = some t := by
          rw [hitsAt_congr d (delFold L d) hsx hsy]
          exact hl
        show ((obj.object_form.foldl (drawStep move_to_x move_to_y)
            ((delFold L d), [])).1.getCell (i : Int) (j : Int)).is_active = true
        rw [hget, hl1]

def exObjMove : EngineObject :=
  { object_form := [(0, 0, some "M")], object_coordinates := some [(2, 2)] }

theorem move_object_is_remove_then_draw_witness :
    ((Display.init 10 10).wf = true ∧ exObjMove.object_coordinates = some [(2, 2)] ∧
        ∀ p ∈ [((2 : Int), (2 : Int))], (Display.init 10 10).check_coordinates p.1 p.2 = true) ∧
      ((Display.init 10 10).move_object exObjMove 5 5 =
          removeThenDraw (Display.init 10 10) exObjMove 5 5 ∧
        ∀ q, (Display.init 10 10).move_object exObjMove 5 5 = some q →
          (∀ i j : Nat, ((i : Int), (j : Int)) ∈ [((2 : Int), (2 : Int))] →
            hitsAt (Display.init 10 10) exObjMove.object_form 5 5 i j = [] →
            q.1.getCell (i : Int) (j : Int) =
              { (Display.init 10 10).getCell (i : Int) (j : Int) with
                symbol := EMPTY_CELL_SYMBOL, is_active := false }) ∧
          (∀ i j : Nat,
            (hitsAt (Display.init 10 10) exObjMove.object_form 5 5 i j).getLast? ≠ none →
            (q.1.getCell (i : Int) (j : Int)).is_active = true)) :=
  ⟨⟨by decide, by decide, by decide⟩,
    move_object_is_remove_then_draw (Display.init 10 10) exObjMove 5 5 [(2, 2)]
      (by decide) (by decide) (by decide)⟩

theorem string_join_eq_foldl (l : List String) :
    String.join l = l.foldl (fun x y => x ++ y) "" := rfl

theorem string_foldl_append (l : List String) (a : String) :
    l.foldl (fun x y => x ++ y) a = a ++ l.foldl (fun x y => x ++ y) "" := by
  induction l generalizing a with
  | nil => exact (String.append_empty a).symm
  | cons s rest ih =>
    rw [List.foldl_cons, List.foldl_cons, ih (a ++ s), ih ("" ++ s),
      String.empty_append, String.append_assoc]

theorem string_join_cons (s : String) (l : List String) :
    String.join (s :: l) = s ++ String.join l := by
  rw [string_join_eq_foldl, List.foldl_cons, string_foldl_append,
    String.empty_append, ← string_join_eq_foldl]

theorem renderFrame_fold (rows : List (List Cell)) (acc : String) :
    rows.foldl (fun a row => a ++ rowString row ++ "\n") acc =
      acc ++ String.join (rows.map (fun row => rowString row ++ "\n")) := by
  induction rows generalizing acc with
  | nil => exact (String.append_empty acc).symm
  | cons r rest ih =>
    rw [List.foldl_cons, ih, List.map_cons, string_join_cons]
    simp only [String.append_assoc]

theorem rowString_length_fold (row : List Cell) (acc : String)
    (h : ∀ c ∈ row, c.symbol.length = 1) :
    (row.foldl (fun a c => a ++ c.symbol) acc).length = acc.length + row.length := by
  induction row generalizing acc with
  | nil => simp
  | cons c rest ih =>
    rw [List.foldl_cons, ih _ (fun a ha => h a (List.mem_cons_of_mem _ ha)),
      String.length_append, h c (List.mem_cons_self _ _), List.length_cons]
    omega

theorem rowString_length (row : List Cell) (h : ∀ c ∈ row, c.symbol.length = 1) :
    (rowString row).length = row.length := by
  have hdef : rowString row = row.foldl (fun a c => a ++ c.symbol) "" := rfl
  rw [hdef, rowString_length_fold row "" h, String.length_empty]
  omega

/-- C4: `render` writes the home control sequence and then the frame in
one write; the frame is the newline-join of the lines, there are exactly
`size_y` lines, each line has exactly `size_x` characters (under the
single-character symbol contract), and line `i` is the concatenation of
row `i`'s cell symbols in column order. -/
theorem render_spec (d : Display) (hwf : d.wf = true)
    (hsym : d.singleCharSymbols = true) :
    d.renderOutput = "\x1b[H" ++ d.renderFrame ++ "\n" ∧
    d.renderFrame = String.join (d.renderLines.map (fun line => line ++ "\n")) ∧
    d.renderLines.length = d.size_y ∧
    (∀ line ∈ d.renderLines, line.length = d.size_x) ∧
    ∀ i : Nat, i < d.size_y →
      d.renderLines.getD i "" = rowString (d.display.getD i []) := by
  refine ⟨rfl, ?_, ?_, ?_, ?_⟩
  · show d.display.foldl (fun a row => a ++ rowString row ++ "\n") "" = _
    rw [renderFrame_fold, String.empty_append]
    simp only [Display.renderLines, List.map_map]
    rfl
  · simp only [Display.renderLines, List.length_map]
    exact wf_length d hwf
  · intro line hline
    obtain ⟨row, hrow, hdef⟩ := List.mem_map.mp hline
    subst hdef
    rw [rowString_length]
    · exact wf_row_length d hwf row hrow
    · intro c hc
      simp only [Display.singleCharSymbols] at hsym
      have h1 := List.all_eq_true.mp hsym row hrow
      have h2 := List.all_eq_true.mp h1 c hc
      simpa using h2
  · intro i hi
    have hlen2 : i < d.display.length := by
      rw [wf_length d hwf]
      exact hi
    have hlen : i < d.renderLines.length := by
      simp only [Display.renderLines, List.length_map]
      exact hlen2
    rw [List.getD_eq_getElem _ _ hlen, List.getD_eq_getElem _ _ hlen2]
    simp [Display.renderLines]

def exDisplayX : Display := (Display.init 4 3).activate_cell 0 0 (some "X")

theorem render_spec_witness :
    (exDisplayX.wf = true ∧ exDisplayX.singleCharSymbols = true) ∧
      (exDisplayX.renderOutput = "\x1b[H" ++ exDisplayX.renderFrame ++ "\n" ∧
        exDisplayX.renderFrame =
          String.join (exDisplayX.renderLines.map (fun line => line ++ "\n")) ∧
        exDisplayX.renderLines.length = exDisplayX.size_y ∧
        (∀ line ∈ exDisplayX.renderLines, line.length = exDisplayX.size_x) ∧
        ∀ i : Nat, i < exDisplayX.size_y →
          exDisplayX.renderLines.getD i "" = rowString (exDisplayX.display.getD i [])) ∧
      exDisplayX.renderLines = ["X   ", "    ", "    "] :=
  ⟨⟨by decide, by decide⟩, render_spec exDisplayX (by decide) (by decide), by decide⟩
